import Mathlib

/-
Shallow embedding of the khni/error-handler library: the error taxonomy
(CustomError, HttpError, InputValidationError), the HttpErrorSerializer,
the errorMapper, and the ErrorHandler strategy-chain dispatcher, together
with theorems settling the frozen claims about them.

JavaScript runtime values that the code treats as opaque (code: unknown,
meta?: some object, cause: unknown) are modelled by the value universe JsVal.
References to Error objects (which may form cyclic cause chains) are modelled
as errRef indices into an explicit heap of error nodes. Logger calls are a
fire-and-forget side channel and are not modelled; the response sink is
modelled as the list of status+body writes a handler performs.
-/

namespace ErrorHandlerLib

/-- Universe of JavaScript values as far as this library inspects them.
errRef is a reference to an Error object living in an explicit heap,
so that cyclic cause chains are representable. -/
inductive JsVal where
  | nullv
  | undef
  | boolv (b : Bool)
  | num (n : Int)
  | str (s : String)
  | arr (elems : List JsVal)
  | obj (fields : List (String × JsVal))
  | errRef (id : Nat)

/-- JavaScript truthiness, as used by the `current.cause` loop guard in
HttpErrorSerializer.flattenErrorCauses. -/
def JsVal.truthy : JsVal → Bool
  | .nullv => false
  | .undef => false
  | .boolv b => b
  | .num n => n != 0
  | .str s => s != ""
  | _ => true

/-- Keys of a JSON object value, in order; non-objects have no keys. -/
def JsVal.objKeys : JsVal → List String
  | .obj fields => fields.map Prod.fst
  | _ => []

/-- Look up a key in a JSON object value. -/
def JsVal.objGet : JsVal → String → Option JsVal
  | .obj fields, k => (fields.find? (fun f => f.1 == k)).map Prod.snd
  | _, _ => none

/-- The four logger severities from src/errors/types.ts. -/
inductive LogLevel where
  | debug
  | info
  | warn
  | error
deriving DecidableEq

/-- CustomError from src/errors/CustomError.ts: name, message, code
(generic CodeType), logLevel, optional meta, and an unconstrained cause. -/
structure CustomError (CodeType : Type) where
  name : String
  message : String
  code : CodeType
  logLevel : LogLevel
  meta : Option JsVal
  cause : JsVal

/-- HttpError from src/errors/HttpError.ts: adds statusCode and the
client-safe responseMessage; code is unknown (any JsVal). stack is the
string the runtime attaches to every Error. -/
structure HttpError where
  statusCode : Nat
  name : String
  message : String
  responseMessage : String
  code : JsVal
  logLevel : LogLevel
  meta : Option JsVal
  stack : String
  cause : JsVal

/-- An arbitrary Error object on the heap, as inspected by the cause-chain
walk: name, message, stack are always present on an Error; code,
responseMessage and meta are copied only when the property exists
(the `in` checks in flattenErrorCauses), hence Option. cause is any value. -/
structure ErrNode where
  name : String
  message : String
  stack : String
  code : Option JsVal
  responseMessage : Option JsVal
  meta : Option JsVal
  cause : JsVal

/-- One entry of the flattened cause chain, as pushed by
flattenErrorCauses: always name/message/stack, optional fields copied
only if present on the cause object. -/
structure CauseInfo where
  name : String
  message : String
  stack : String
  code : Option JsVal
  responseMessage : Option JsVal
  meta : Option JsVal

/-- The record flattenErrorCauses pushes for one error-like cause link. -/
def causeInfoOf (n : ErrNode) : CauseInfo :=
  { name := n.name
    message := n.message
    stack := n.stack
    code := n.code
    responseMessage := n.responseMessage
    meta := n.meta }

namespace HttpErrorSerializer

/-- MAX_CAUSE_DEPTH from HttpErrorSerializer.flattenErrorCauses. -/
def MAX_CAUSE_DEPTH : Nat := 100

/-- The while loop of HttpErrorSerializer.flattenErrorCauses. The argument
is the `cause` value of the current Error (the current value itself is
known to be an Error whenever we recurse) and the remaining iteration
budget (MAX_CAUSE_DEPTH minus count). Loop guard:
`current instanceof Error && current.cause && count < MAX_CAUSE_DEPTH`.
The body steps to the cause; if the new current is an Error it pushes its
record, otherwise the guard fails on the next check and nothing more is
pushed. A falsy cause fails the guard immediately. -/
def flattenCausesAux (heap : Nat → ErrNode) : JsVal → Nat → List CauseInfo
  | _, 0 => []
  | c, fuel + 1 =>
    if c.truthy then
      match c with
      | .errRef id => causeInfoOf (heap id) :: flattenCausesAux heap (heap id).cause fuel
      | _ => []
    else []

/-- HttpErrorSerializer.flattenErrorCauses: walk the cause chain of the
given HttpError through the heap, up to MAX_CAUSE_DEPTH links. -/
def flattenErrorCauses (heap : Nat → ErrNode) (error : HttpError) : List CauseInfo :=
  flattenCausesAux heap error.cause MAX_CAUSE_DEPTH

/-- topLevel part of the diagnostic record built by serializerError. -/
structure DiagnosticTopLevel where
  name : String
  message : String
  code : JsVal
  logLevel : LogLevel
  responseMessage : String
  meta : Option JsVal
  stack : String

/-- The diagnostic record returned by serializerError. -/
structure DiagnosticRecord where
  topLevel : DiagnosticTopLevel
  causeChain : List CauseInfo

/-- HttpErrorSerializer.serializerError: full diagnostic serialization,
for logging only. -/
def serializerError (heap : Nat → ErrNode) (error : HttpError) : DiagnosticRecord :=
  { topLevel :=
      { name := error.name
        message := error.message
        code := error.code
        logLevel := error.logLevel
        responseMessage := error.responseMessage
        meta := error.meta
        stack := error.stack }
    causeChain := flattenErrorCauses heap error }

/-- HttpErrorSerializer.serializeResponse: the client-safe record
`\x7berrorType: "Server", error: \x7bmessage: responseMessage, code, name\x7d\x7d`. -/
def serializeResponse (error : HttpError) : JsVal :=
  .obj
    [("errorType", .str "Server"),
     ("error", .obj
        [("message", .str error.responseMessage),
         ("code", error.code),
         ("name", .str error.name)])]

end HttpErrorSerializer

/-- One (field, messages) entry of InputValidationErrorType, as produced by
a validation-library serializer; field may be omitted. -/
structure RawFieldError where
  field : Option String
  messages : List String

/-- InputValidationErrorType from src/errors/types.ts: the contract of a
validation adapter function. -/
structure InputValidationErrorType where
  name : String
  errors : List RawFieldError

/-- One normalized (field, messages) entry stored on an
InputValidationError: field is always a string after normalization. -/
structure FieldError where
  field : String
  messages : List String

/-- InputValidationError (src/errors/input-validation/InputValidationError.ts):
name and normalized errors; message is the inherited Error message set by
`super(serialized.name)`. -/
structure InputValidationError where
  name : String
  message : String
  errors : List FieldError

/-- The InputValidationError constructor: run the injected serializer on
the raw error, set message and name to the serialized name, and normalize
each entry so field is a defined string (falling back to "unknown"). -/
def InputValidationError.ofRaw {T : Type} (rawError : T)
    (serializer : T → InputValidationErrorType) : InputValidationError :=
  let serialized := serializer rawError
  { name := serialized.name
    message := serialized.name
    errors := serialized.errors.map (fun err =>
      { field := err.field.getD "unknown"
        messages := err.messages }) }

/-- JSON shape of one normalized entry when the error object is serialized
into a response body. -/
def FieldError.toJsVal (fe : FieldError) : JsVal :=
  .obj [("field", .str fe.field), ("messages", .arr (fe.messages.map JsVal.str))]

/-- InputValidationError.toJSON, which is also the shape res.json gives the
error object when it is embedded in a response body:
`\x7bname, errors\x7d`. -/
def InputValidationError.toJSON (e : InputValidationError) : JsVal :=
  .obj [("name", .str e.name), ("errors", .arr (e.errors.map FieldError.toJsVal))]

/-- An entry of the code-to-HTTP mapping table handed to errorMapper. -/
structure MapEntry where
  statusCode : Nat
  responseMessage : String

/-- MappedHttpError from src/mapper/MappedHttpError.ts: the concrete
HttpError produced by errorMapper. Its constructor forwards every base
field of its params to the HttpError base (which assigns name, message,
meta, code, logLevel, cause and responseMessage) and then assigns
statusCode, so an instance carries exactly the fields below. It is kept
generic over the code type to match the generic signature of its only
producer, errorMapper. -/
structure MappedHttpError (CodeType : Type) where
  statusCode : Nat
  responseMessage : String
  name : String
  message : String
  code : CodeType
  logLevel : LogLevel
  meta : Option JsVal
  cause : JsVal

/-- errorMapper from src/mapper/errorMapper.ts: look up the code in the
mapping table (a JS Record, modelled as a partial function); if absent,
fall back to 500 / "Internal Server Error", in both cases copying every
diagnostic field of the source error through unchanged. The console.warn
side channel of the fallback branch is not modelled. -/
def errorMapper {CodeType : Type} (error : CustomError CodeType)
    (codeMapping : CodeType → Option MapEntry) : MappedHttpError CodeType :=
  match codeMapping error.code with
  | none =>
    { statusCode := 500
      responseMessage := "Internal Server Error"
      name := error.name
      message := error.message
      code := error.code
      logLevel := error.logLevel
      meta := error.meta
      cause := error.cause }
  | some mapping =>
    { statusCode := mapping.statusCode
      responseMessage := mapping.responseMessage
      name := error.name
      message := error.message
      code := error.code
      logLevel := error.logLevel
      meta := error.meta
      cause := error.cause }

/-- The universe of error values that can reach the dispatcher: members of
the taxonomy (HttpError, InputValidationError), plain Error objects, and
non-error values such as strings or null. The instanceof checks of the
strategies become constructor matches. -/
inductive ErrValue where
  | http (e : HttpError)
  | validation (e : InputValidationError)
  | plain (name message stack : String)
  | strv (s : String)
  | nullv

/-- One finalized response: res.status(status).json(body). -/
structure Write where
  status : Nat
  body : JsVal

/-- IErrorHandlingStrategy: a classification predicate and a handling
routine; handle returns the list of response writes it performs. -/
structure Strategy where
  canHandle : ErrValue → Bool
  handle : ErrValue → List Write

/-- HttpErrorHandlerStrategy: matches HttpError instances; handle casts the
error to HttpError (sound only under the canHandle guard, hence the empty
unreachable branch) and writes the statusCode with the client-safe
serialization. The optional logger call is not modelled. -/
def HttpErrorHandlerStrategy : Strategy where
  canHandle err :=
    match err with
    | .http _ => true
    | _ => false
  handle err :=
    match err with
    | .http e => [⟨e.statusCode, HttpErrorSerializer.serializeResponse e⟩]
    | _ => []

/-- InputValidationErrorHandlerStrategy: matches InputValidationError
instances; handle writes status 400 with body
`\x7berrorType: "InputValidation", error\x7d` where the error object is
serialized through its toJSON. The optional warn log is not modelled. -/
def InputValidationErrorHandlerStrategy : Strategy where
  canHandle err :=
    match err with
    | .validation _ => true
    | _ => false
  handle err :=
    match err with
    | .validation e => [⟨400, .obj [("errorType", .str "InputValidation"), ("error", e.toJSON)]⟩]
    | _ => []

/-- FallbackErrorStrategy: matches everything and writes the generic
wrapped 500 body. The optional error log is not modelled. -/
def FallbackErrorStrategy : Strategy where
  canHandle _ := true
  handle _ :=
    [⟨500, .obj
        [("errorType", .str "Server"),
         ("error", .obj
            [("code", .str "UNKNOWN_ERROR"),
             ("message", .str "An Expected error occurred."),
             ("name", .str "unknown")])]⟩]

/-- The flat hardcoded body the dispatcher writes itself when no strategy
matches (note: no errorType/error wrapper). -/
def unknownErrorBody : JsVal :=
  .obj
    [("code", .str "UNKNOWN_ERROR"),
     ("message", .str "An Expected error occurred."),
     ("name", .str "unknown")]

/-- ErrorHandler.handle from src/errors/CustomError.ts (ErrorHandler
class): find the first strategy whose canHandle accepts the error and run
its handle; otherwise write the hardcoded 500 body directly. -/
def ErrorHandler.handle (strategies : List Strategy) (err : ErrValue) : List Write :=
  match strategies.find? (fun s => s.canHandle err) with
  | some s => s.handle err
  | none => [⟨500, unknownErrorBody⟩]

/-- Instrumented trace of one dispatch: which strategy indices had their
canHandle predicate evaluated (in order), which strategy (if any) had its
handle executed, and the writes performed. -/
structure DispatchTrace where
  evaluated : List Nat
  executed : Option Nat
  writes : List Write

/-- The scan performed by `strategies.find((s) => s.canHandle(err))`,
instrumented: returns the list of indices whose predicate was evaluated
and the first match (index and strategy), if any. -/
def scanStrategies (err : ErrValue) : List Strategy → Nat → List Nat × Option (Nat × Strategy)
  | [], _ => ([], none)
  | s :: rest, i =>
    if s.canHandle err then ([i], some (i, s))
    else
      let r := scanStrategies err rest (i + 1)
      (i :: r.1, r.2)

/-- ErrorHandler.handle with its evaluation trace made explicit. -/
def ErrorHandler.handleTraced (strategies : List Strategy) (err : ErrValue) : DispatchTrace :=
  match scanStrategies err strategies 0 with
  | (ev, some (i, s)) => ⟨ev, some i, s.handle err⟩
  | (ev, none) => ⟨ev, none, [⟨500, unknownErrorBody⟩]⟩

/-- The strategy chain the library documentation wires up: HTTP strategy,
then validation strategy, then the catch-all fallback. -/
def standardStrategies : List Strategy :=
  [HttpErrorHandlerStrategy, InputValidationErrorHandlerStrategy, FallbackErrorStrategy]

/-- The matched strategy of the instrumented scan agrees with the
uninstrumented `find?` scan of ErrorHandler.handle. -/
theorem scanStrategies_snd (err : ErrValue) :
    ∀ (st : List Strategy) (i : Nat),
      ((scanStrategies err st i).2).map Prod.snd = st.find? (fun s => s.canHandle err)
  | [], _ => rfl
  | s :: rest, i => by
    by_cases hc : s.canHandle err = true
    · simp [scanStrategies, hc, List.find?_cons_of_pos _ hc]
    · have hc' : s.canHandle err = false := by simpa using hc
      simp only [scanStrategies, hc', if_false, Bool.false_eq_true]
      rw [List.find?_cons_of_neg _ (by simp [hc'])]
      exact scanStrategies_snd err rest (i + 1)

/-- The traced dispatcher performs exactly the writes of
ErrorHandler.handle. -/
theorem handleTraced_writes (st : List Strategy) (err : ErrValue) :
    (ErrorHandler.handleTraced st err).writes = ErrorHandler.handle st err := by
  have h := scanStrategies_snd err st 0
  unfold ErrorHandler.handleTraced ErrorHandler.handle
  rcases hscan : scanStrategies err st 0 with ⟨ev, found⟩
  rw [hscan] at h
  cases found with
  | none =>
    simp only [Option.map_none'] at h
    rw [← h]
  | some p =>
    rcases p with ⟨i, s⟩
    simp only [Option.map_some'] at h
    rw [← h]

/-- Shifting a range of evaluated indices by one position. -/
theorem range_map_shift (i n : Nat) :
    i :: (List.range n).map (fun x => i + 1 + x) = (List.range (n + 1)).map (fun x => i + x) := by
  rw [List.range_succ_eq_map, List.map_cons, List.map_map]
  refine List.cons_eq_cons.mpr ⟨by omega, ?_⟩
  exact List.map_congr_left (fun a _ => by simp only [Function.comp_apply]; omega)

/-- If the first matching strategy sits at index k, the scan evaluates
precisely the predicates at offsets 0..k and returns that strategy. -/
theorem scanStrategies_first_match (err : ErrValue) :
    ∀ (st : List Strategy) (i k : Nat) (sk : Strategy),
      st[k]? = some sk → sk.canHandle err = true →
      (∀ m, m < k → ∀ sm, st[m]? = some sm → sm.canHandle err = false) →
      scanStrategies err st i = ((List.range (k + 1)).map (i + ·), some (i + k, sk))
  | [], i, k, sk, hk, _, _ => by simp at hk
  | s :: rest, i, 0, sk, hk, hck, _ => by
    simp only [List.getElem?_cons_zero, Option.some.injEq] at hk
    subst hk
    simp [scanStrategies, hck, List.range, List.range.loop]
  | s :: rest, i, k + 1, sk, hk, hck, hfirst => by
    have hs0 : s.canHandle err = false := hfirst 0 (Nat.succ_pos k) s (by simp)
    have hrest :
        scanStrategies err rest (i + 1)
          = ((List.range (k + 1)).map ((i + 1) + ·), some ((i + 1) + k, sk)) :=
      scanStrategies_first_match err rest (i + 1) k sk
        (by simpa using hk) hck
        (fun m hm sm hsm => hfirst (m + 1) (Nat.succ_lt_succ hm) sm (by simpa using hsm))
    simp only [scanStrategies, hs0, Bool.false_eq_true, if_false, hrest]
    rw [← range_map_shift i (k + 1)]
    have harith : i + 1 + k = i + (k + 1) := by omega
    rw [harith]

/-- If no strategy matches, the scan evaluates every predicate and finds
nothing. -/
theorem scanStrategies_none (err : ErrValue) :
    ∀ (st : List Strategy) (i : Nat),
      (∀ s ∈ st, s.canHandle err = false) →
      scanStrategies err st i = ((List.range st.length).map (i + ·), none)
  | [], i, _ => rfl
  | s :: rest, i, h => by
    have hs : s.canHandle err = false := h s (List.mem_cons_self s rest)
    have hrest := scanStrategies_none err rest (i + 1)
      (fun x hx => h x (List.mem_cons_of_mem s hx))
    simp only [scanStrategies, hs, Bool.false_eq_true, if_false, hrest, List.length_cons]
    rw [← range_map_shift i rest.length]

/-- Dispatching past a non-matching head strategy is dispatching on the
tail. -/
theorem handle_cons_neg {s : Strategy} {err : ErrValue} (rest : List Strategy)
    (h : s.canHandle err = false) :
    ErrorHandler.handle (s :: rest) err = ErrorHandler.handle rest err := by
  simp [ErrorHandler.handle, List.find?_cons, h]

/-- Dispatching on a matching head strategy runs exactly its handle. -/
theorem handle_cons_pos {s : Strategy} {err : ErrValue} (rest : List Strategy)
    (h : s.canHandle err = true) :
    ErrorHandler.handle (s :: rest) err = s.handle err := by
  simp [ErrorHandler.handle, List.find?_cons, h]

/-- The cause walk never returns more entries than its remaining budget. -/
theorem flattenCausesAux_length_le (heap : Nat → ErrNode) :
    ∀ (c : JsVal) (fuel : Nat),
      (HttpErrorSerializer.flattenCausesAux heap c fuel).length ≤ fuel := by
  intro c fuel
  induction fuel generalizing c with
  | zero => simp [HttpErrorSerializer.flattenCausesAux]
  | succ m ih =>
    unfold HttpErrorSerializer.flattenCausesAux
    by_cases ht : c.truthy = true
    · simp only [ht, if_true]
      cases c <;>
        first
          | (simp only [List.length_cons]
             exact Nat.succ_le_succ (ih _))
          | simp
    · simp [ht]

/-- Walking a falsy (absent) cause yields nothing, at any budget. -/
theorem flattenCausesAux_undef (heap : Nat → ErrNode) (fuel : Nat) :
    HttpErrorSerializer.flattenCausesAux heap .undef fuel = [] := by
  cases fuel <;> simp [HttpErrorSerializer.flattenCausesAux, JsVal.truthy]

/-- A linear acyclic heap with n error nodes: node i points to node i+1
while that exists, and the last node has no cause. -/
def linHeap (n : Nat) : Nat → ErrNode := fun i =>
  { name := "lin"
    message := "m"
    stack := "s"
    code := none
    responseMessage := none
    meta := none
    cause := if i + 1 < n then .errRef (i + 1) else .undef }

/-- An HttpError whose cause chain is the n-link linear chain of linHeap. -/
def linErr (n : Nat) : HttpError :=
  { statusCode := 500
    name := "top"
    message := "m"
    responseMessage := "r"
    code := .str "C"
    logLevel := .error
    meta := none
    stack := "s"
    cause := if 0 < n then .errRef 0 else .undef }

/-- A cyclic heap of 150 error nodes, each referencing the next modulo
150, so the cause chain never ends. -/
def cycHeap : Nat → ErrNode := fun i =>
  { name := "cyc"
    message := "m"
    stack := "s"
    code := none
    responseMessage := none
    meta := none
    cause := .errRef ((i + 1) % 150) }

/-- An HttpError whose cause chain enters the 150-node cycle of cycHeap. -/
def cycErr : HttpError :=
  { statusCode := 500
    name := "top"
    message := "m"
    responseMessage := "r"
    code := .str "C"
    logLevel := .error
    meta := none
    stack := "s"
    cause := .errRef 0 }

/-- On the linear heap, the walk starting at node i with enough budget
captures exactly the remaining n - i links. -/
theorem flattenCausesAux_lin (n : Nat) :
    ∀ (fuel i : Nat), i < n → n - i ≤ fuel →
      (HttpErrorSerializer.flattenCausesAux (linHeap n) (.errRef i) fuel).length = n - i := by
  intro fuel
  induction fuel with
  | zero => intro i hi hle; omega
  | succ m ih =>
    intro i hi hle
    unfold HttpErrorSerializer.flattenCausesAux
    simp only [JsVal.truthy, if_true]
    by_cases hnext : i + 1 < n
    · have hcause : (linHeap n i).cause = .errRef (i + 1) := by simp [linHeap, hnext]
      rw [hcause]
      simp only [List.length_cons, ih (i + 1) hnext (by omega)]
      omega
    · have hcause : (linHeap n i).cause = .undef := by simp [linHeap, hnext]
      rw [hcause, flattenCausesAux_undef]
      simp only [List.length_cons, List.length_nil]
      omega

/-- A serializer whose serialized name collides with one of its per-field
messages. -/
def nameCollisionSerializer : Unit → InputValidationErrorType := fun _ =>
  { name := "dup", errors := [{ field := some "f", messages := ["dup"] }] }

/-- C1: every dispatch writes exactly one status+body pair — via the first
matching strategy whenever each strategy of the chain writes exactly one
pair on errors it accepts (as all concrete strategies do), or via the
hardcoded 500 branch when nothing matches; in particular the documented
chain writes exactly one pair for every error value, including plain
errors, strings and null. -/
theorem dispatch_writes_exactly_one :
    (∀ (strategies : List Strategy) (err : ErrValue),
        (∀ s ∈ strategies, s.canHandle err = true → (s.handle err).length = 1) →
        (ErrorHandler.handle strategies err).length = 1) ∧
    (∀ err : ErrValue, (ErrorHandler.handle standardStrategies err).length = 1) := by
  have main : ∀ (strategies : List Strategy) (err : ErrValue),
      (∀ s ∈ strategies, s.canHandle err = true → (s.handle err).length = 1) →
      (ErrorHandler.handle strategies err).length = 1 := by
    intro st err h
    induction st with
    | nil => simp [ErrorHandler.handle]
    | cons s rest ih =>
      by_cases hc : s.canHandle err = true
      · rw [handle_cons_pos rest hc]
        exact h s (List.mem_cons_self s rest) hc
      · have hc' : s.canHandle err = false := by simpa using hc
        rw [handle_cons_neg rest hc']
        exact ih (fun x hx => h x (List.mem_cons_of_mem s hx))
  refine ⟨main, ?_⟩
  intro err
  apply main
  intro s hs hc
  simp only [standardStrategies, List.mem_cons, List.not_mem_nil, or_false] at hs
  rcases hs with rfl | rfl | rfl
  · cases err <;> simp_all [HttpErrorHandlerStrategy]
  · cases err <;> simp_all [InputValidationErrorHandlerStrategy]
  · simp [FallbackErrorStrategy]

/-- Witness for C1: a chain missing its fallback still writes exactly one
pair on a null-like error, through the hardcoded 500 branch. -/
theorem dispatch_writes_exactly_one_witness :
    (ErrorHandler.handle [HttpErrorHandlerStrategy, InputValidationErrorHandlerStrategy]
        ErrValue.nullv).length = 1 :=
  dispatch_writes_exactly_one.1 _ ErrValue.nullv (by decide)

/-- C2: the client record contains only the keys errorType and error; the
error object contains exactly message (bound to responseMessage), code and
name; and two HttpErrors agreeing on responseMessage, code and name — no
matter how their internal message, stack, meta and cause differ — produce
identical client records. -/
theorem serializeResponse_client_safe :
    (∀ e : HttpError,
        (HttpErrorSerializer.serializeResponse e).objKeys = ["errorType", "error"] ∧
        ((HttpErrorSerializer.serializeResponse e).objGet "error").map JsVal.objKeys
          = some ["message", "code", "name"] ∧
        (((HttpErrorSerializer.serializeResponse e).objGet "error").bind
            (fun o => o.objGet "message")) = some (.str e.responseMessage)) ∧
    (∀ e₁ e₂ : HttpError,
        e₁.responseMessage = e₂.responseMessage → e₁.code = e₂.code → e₁.name = e₂.name →
        HttpErrorSerializer.serializeResponse e₁ = HttpErrorSerializer.serializeResponse e₂) := by
  constructor
  · intro e
    exact ⟨rfl, rfl, rfl⟩
  · intro e₁ e₂ h1 h2 h3
    simp [HttpErrorSerializer.serializeResponse, h1, h2, h3]

/-- Witness for C2: two concrete HttpErrors that differ in internal
message, stack, meta and cause but agree on responseMessage, code and name
yield identical client records. -/
theorem serializeResponse_client_safe_witness :
    HttpErrorSerializer.serializeResponse
        { statusCode := 404
          name := "NotFoundError"
          message := "secret internal detail"
          responseMessage := "Not Found"
          code := .str "E_NF"
          logLevel := .warn
          meta := some (.obj [("userId", .str "123")])
          stack := "stack frame A"
          cause := .errRef 0 }
      = HttpErrorSerializer.serializeResponse
        { statusCode := 404
          name := "NotFoundError"
          message := "a different secret"
          responseMessage := "Not Found"
          code := .str "E_NF"
          logLevel := .warn
          meta := none
          stack := "stack frame B"
          cause := .undef } :=
  serializeResponse_client_safe.2 _ _ rfl rfl rfl

/-- C3: the diagnostic cause-chain walk always terminates with at most 100
entries for every heap, including cyclic ones; a chain entering a 150-node
self-referencing cycle yields at most 100 entries; and an acyclic chain of
n < 100 links is walked to completion, yielding exactly n entries. -/
theorem serializerError_causeChain_bounded :
    (∀ (heap : Nat → ErrNode) (error : HttpError),
        (HttpErrorSerializer.serializerError heap error).causeChain.length ≤ 100) ∧
    (HttpErrorSerializer.flattenErrorCauses cycHeap cycErr).length ≤ 100 ∧
    ∀ n, n < 100 →
      (HttpErrorSerializer.flattenErrorCauses (linHeap n) (linErr n)).length = n := by
  refine ⟨?_, ?_, ?_⟩
  · intro heap error
    exact flattenCausesAux_length_le heap error.cause 100
  · exact flattenCausesAux_length_le cycHeap cycErr.cause 100
  · intro n hn
    unfold HttpErrorSerializer.flattenErrorCauses HttpErrorSerializer.MAX_CAUSE_DEPTH linErr
    by_cases h0 : 0 < n
    · simp only [h0, if_true]
      rw [flattenCausesAux_lin n 100 0 h0 (by omega)]
      omega
    · obtain rfl : n = 0 := by omega
      simp [flattenCausesAux_undef]

/-- Witness for C3: the 7-link acyclic chain is walked to completion. -/
theorem serializerError_causeChain_bounded_witness :
    (HttpErrorSerializer.flattenErrorCauses (linHeap 7) (linErr 7)).length = 7 :=
  serializerError_causeChain_bounded.2.2 7 (by decide)

/-- C4: when the error code is absent from the mapping table, errorMapper
returns (totally — the embedding is a total function, so this branch
cannot fail) a MappedHttpError with statusCode 500 and responseMessage
"Internal Server Error", preserving the original code, name and message in
the diagnostic fields. -/
theorem errorMapper_unmapped_fallback {CodeType : Type} (error : CustomError CodeType)
    (codeMapping : CodeType → Option MapEntry)
    (h : codeMapping error.code = none) :
    (errorMapper error codeMapping).statusCode = 500 ∧
    (errorMapper error codeMapping).responseMessage = "Internal Server Error" ∧
    (errorMapper error codeMapping).code = error.code ∧
    (errorMapper error codeMapping).name = error.name ∧
    (errorMapper error codeMapping).message = error.message := by
  simp [errorMapper, h]

/-- Witness for C4: a concrete unmapped code takes the 500 fallback with
its diagnostic fields intact. -/
theorem errorMapper_unmapped_fallback_witness :
    (errorMapper
        ({ name := "UserError"
           message := "user 7 missing"
           code := "USER_NOT_FOUND"
           logLevel := .warn
           meta := none
           cause := .undef } : CustomError String)
        (fun _ => none)).statusCode = 500 ∧
    (errorMapper
        ({ name := "UserError"
           message := "user 7 missing"
           code := "USER_NOT_FOUND"
           logLevel := .warn
           meta := none
           cause := .undef } : CustomError String)
        (fun _ => none)).responseMessage = "Internal Server Error" ∧
    (errorMapper
        ({ name := "UserError"
           message := "user 7 missing"
           code := "USER_NOT_FOUND"
           logLevel := .warn
           meta := none
           cause := .undef } : CustomError String)
        (fun _ => none)).code = "USER_NOT_FOUND" ∧
    (errorMapper
        ({ name := "UserError"
           message := "user 7 missing"
           code := "USER_NOT_FOUND"
           logLevel := .warn
           meta := none
           cause := .undef } : CustomError String)
        (fun _ => none)).name = "UserError" ∧
    (errorMapper
        ({ name := "UserError"
           message := "user 7 missing"
           code := "USER_NOT_FOUND"
           logLevel := .warn
           meta := none
           cause := .undef } : CustomError String)
        (fun _ => none)).message = "user 7 missing" :=
  errorMapper_unmapped_fallback _ _ rfl

/-- C5: for every CustomError and mapping table, errorMapper passes code,
meta, cause, logLevel (severity), name and message through unchanged, and
when the code is mapped, statusCode and responseMessage are exactly the
table entry for the code. -/
theorem errorMapper_preserves_diagnostics {CodeType : Type} (error : CustomError CodeType)
    (codeMapping : CodeType → Option MapEntry) :
    (errorMapper error codeMapping).code = error.code ∧
    (errorMapper error codeMapping).meta = error.meta ∧
    (errorMapper error codeMapping).cause = error.cause ∧
    (errorMapper error codeMapping).logLevel = error.logLevel ∧
    (errorMapper error codeMapping).name = error.name ∧
    (errorMapper error codeMapping).message = error.message ∧
    ∀ m : MapEntry, codeMapping error.code = some m →
      (errorMapper error codeMapping).statusCode = m.statusCode ∧
      (errorMapper error codeMapping).responseMessage = m.responseMessage := by
  cases h : codeMapping error.code with
  | none => simp [errorMapper, h]
  | some m => simp [errorMapper, h]

/-- Witness for C5 (Scenario D): code USER_NOT_FOUND mapped to 404 / "User
not found" with message, meta and cause unchanged. -/
theorem errorMapper_preserves_diagnostics_witness :
    (errorMapper
        ({ name := "UserError"
           message := "user 7 missing"
           code := "USER_NOT_FOUND"
           logLevel := .warn
           meta := some (.obj [("id", .num 7)])
           cause := .errRef 0 } : CustomError String)
        (fun c => if c = "USER_NOT_FOUND" then some ⟨404, "User not found"⟩ else none)).statusCode
        = 404 ∧
    (errorMapper
        ({ name := "UserError"
           message := "user 7 missing"
           code := "USER_NOT_FOUND"
           logLevel := .warn
           meta := some (.obj [("id", .num 7)])
           cause := .errRef 0 } : CustomError String)
        (fun c => if c = "USER_NOT_FOUND" then some ⟨404, "User not found"⟩ else none)).responseMessage
        = "User not found" ∧
    (errorMapper
        ({ name := "UserError"
           message := "user 7 missing"
           code := "USER_NOT_FOUND"
           logLevel := .warn
           meta := some (.obj [("id", .num 7)])
           cause := .errRef 0 } : CustomError String)
        (fun c => if c = "USER_NOT_FOUND" then some ⟨404, "User not found"⟩ else none)).message
        = "user 7 missing" ∧
    (errorMapper
        ({ name := "UserError"
           message := "user 7 missing"
           code := "USER_NOT_FOUND"
           logLevel := .warn
           meta := some (.obj [("id", .num 7)])
           cause := .errRef 0 } : CustomError String)
        (fun c => if c = "USER_NOT_FOUND" then some ⟨404, "User not found"⟩ else none)).meta
        = some (.obj [("id", .num 7)]) ∧
    (errorMapper
        ({ name := "UserError"
           message := "user 7 missing"
           code := "USER_NOT_FOUND"
           logLevel := .warn
           meta := some (.obj [("id", .num 7)])
           cause := .errRef 0 } : CustomError String)
        (fun c => if c = "USER_NOT_FOUND" then some ⟨404, "User not found"⟩ else none)).cause
        = .errRef 0 := by
  have h := errorMapper_preserves_diagnostics
    ({ name := "UserError"
       message := "user 7 missing"
       code := "USER_NOT_FOUND"
       logLevel := .warn
       meta := some (.obj [("id", .num 7)])
       cause := .errRef 0 } : CustomError String)
    (fun c => if c = "USER_NOT_FOUND" then some ⟨404, "User not found"⟩ else none)
  have hm := h.2.2.2.2.2.2 ⟨404, "User not found"⟩ (by simp)
  exact ⟨hm.1, hm.2, h.2.2.2.2.2.1, h.2.1, h.2.2.1⟩

/-- C6: if the strategies at indices i < j both accept the error and i is
the first match, then the dispatcher executes only the handle of strategy
i, the predicates evaluated are exactly those at indices 0..i — so the
predicate of strategy j is never evaluated — and the traced writes are
exactly the writes of ErrorHandler.handle. -/
theorem dispatch_short_circuit (st : List Strategy) (err : ErrValue) (i j : Nat)
    (si sj : Strategy) (hij : i < j) (hi : st[i]? = some si)
    (hci : si.canHandle err = true) (_hj : st[j]? = some sj)
    (_hcj : sj.canHandle err = true)
    (hfirst : ∀ k, k < i → ∀ sk, st[k]? = some sk → sk.canHandle err = false) :
    (ErrorHandler.handleTraced st err).executed = some i ∧
    (ErrorHandler.handleTraced st err).writes = si.handle err ∧
    (ErrorHandler.handleTraced st err).evaluated = List.range (i + 1) ∧
    j ∉ (ErrorHandler.handleTraced st err).evaluated ∧
    (ErrorHandler.handleTraced st err).writes = ErrorHandler.handle st err := by
  have hscan := scanStrategies_first_match err st 0 i si hi hci hfirst
  have hscan' : scanStrategies err st 0 = (List.range (i + 1), some (i, si)) := by
    rw [hscan, show (fun x => 0 + x) = fun x : Nat => x from funext fun x => by omega]
    simp
  have ht : ErrorHandler.handleTraced st err
      = ⟨List.range (i + 1), some i, si.handle err⟩ := by
    unfold ErrorHandler.handleTraced
    rw [hscan']
  have hw := handleTraced_writes st err
  rw [ht] at hw
  rw [ht]
  refine ⟨rfl, rfl, rfl, ?_, hw⟩
  simp only [List.mem_range]
  omega

/-- Witness for C6: in a three-strategy chain where the strategies at
indices 1 and 2 both match a plain string error, only strategy 1 executes
and the predicate at index 2 is never evaluated. -/
theorem dispatch_short_circuit_witness :
    (ErrorHandler.handleTraced
        [HttpErrorHandlerStrategy, FallbackErrorStrategy, FallbackErrorStrategy]
        (ErrValue.strv "w")).executed = some 1 ∧
    2 ∉ (ErrorHandler.handleTraced
        [HttpErrorHandlerStrategy, FallbackErrorStrategy, FallbackErrorStrategy]
        (ErrValue.strv "w")).evaluated := by
  have h := dispatch_short_circuit
    [HttpErrorHandlerStrategy, FallbackErrorStrategy, FallbackErrorStrategy]
    (ErrValue.strv "w") 1 2 FallbackErrorStrategy FallbackErrorStrategy
    (by decide) rfl rfl rfl rfl
    (by
      intro k hk sk hsk
      obtain rfl : k = 0 := by omega
      rw [show ([HttpErrorHandlerStrategy, FallbackErrorStrategy,
            FallbackErrorStrategy] : List Strategy)[0]?
          = some HttpErrorHandlerStrategy from rfl] at hsk
      injection hsk with hsk
      subst hsk
      rfl)
  exact ⟨h.1, h.2.2.2.1⟩

/-- C7: dispatching an InputValidationError through the documented chain
reaches the validation strategy, which writes exactly status 400 with body
errorType "InputValidation" and an error object holding exactly the name
and the (field, messages) entries in their original order. -/
theorem inputValidation_response_shape (e : InputValidationError) :
    ErrorHandler.handle standardStrategies (.validation e) =
      [⟨400, .obj
          [("errorType", .str "InputValidation"),
           ("error", .obj
              [("name", .str e.name),
               ("errors", .arr (e.errors.map (fun en =>
                  .obj [("field", .str en.field),
                        ("messages", .arr (en.messages.map JsVal.str))])))])]⟩] ∧
    InputValidationErrorHandlerStrategy.handle (.validation e)
      = ErrorHandler.handle standardStrategies (.validation e) := by
  constructor <;> rfl

/-- C8: when no strategy in the chain matches the error, the dispatcher
itself writes status 500 with the flat UNKNOWN_ERROR body — keys code,
message, name only, no errorType/error wrapper — and executes no strategy
handle. -/
theorem dispatch_no_match (st : List Strategy) (err : ErrValue)
    (h : ∀ s ∈ st, s.canHandle err = false) :
    ErrorHandler.handle st err = [⟨500, unknownErrorBody⟩] ∧
    (ErrorHandler.handleTraced st err).executed = none ∧
    unknownErrorBody.objKeys = ["code", "message", "name"] ∧
    unknownErrorBody.objGet "errorType" = none ∧
    unknownErrorBody =
      .obj [("code", .str "UNKNOWN_ERROR"),
            ("message", .str "An Expected error occurred."),
            ("name", .str "unknown")] := by
  refine ⟨?_, ?_, rfl, rfl, rfl⟩
  · unfold ErrorHandler.handle
    rw [List.find?_eq_none.mpr (fun x hx => by simp [h x hx])]
  · unfold ErrorHandler.handleTraced
    rw [scanStrategies_none err st 0 h]

/-- Witness for C8: a chain built without the fallback matches nothing on
a plain string error, so the dispatcher writes the flat 500 body. -/
theorem dispatch_no_match_witness :
    ErrorHandler.handle [HttpErrorHandlerStrategy, InputValidationErrorHandlerStrategy]
        (ErrValue.strv "boom") = [⟨500, unknownErrorBody⟩] :=
  (dispatch_no_match _ _ (by decide)).1

/-- C9: the constructor normalizes every entry so field is always a
string: position by position (order preserved), the normalized field is
the serialized field when present and "unknown" when the serializer
omitted it, and the number of entries is preserved. -/
theorem inputValidation_field_normalized {T : Type} (rawError : T)
    (serializer : T → InputValidationErrorType) :
    (∀ i : Nat,
        ((InputValidationError.ofRaw rawError serializer).errors[i]?).map FieldError.field
          = ((serializer rawError).errors[i]?).map (fun en => en.field.getD "unknown")) ∧
    (InputValidationError.ofRaw rawError serializer).errors.length
      = (serializer rawError).errors.length := by
  constructor
  · intro i
    simp [InputValidationError.ofRaw, List.getElem?_map, Option.map_map]
    rfl
  · simp [InputValidationError.ofRaw]

/-- C10 counterexample: with nameCollisionSerializer the constructed error
has message "dup", which is literally one of the per-field validation
messages — so the message can contain (indeed equal) such a message. -/
theorem inputValidation_message_collision :
    (InputValidationError.ofRaw () nameCollisionSerializer).message = "dup" ∧
    "dup" ∈ ((InputValidationError.ofRaw () nameCollisionSerializer).errors.headD
        ⟨"", []⟩).messages := by
  constructor
  · rfl
  · simp [InputValidationError.ofRaw, nameCollisionSerializer]

/-- C10 (amended): the constructed message always equals the serialized
name, which is also the error name; it is never built from the per-field
validation messages, though it may textually coincide with one when the
serialized name itself does. -/
theorem inputValidation_message_eq_name {T : Type} (rawError : T)
    (serializer : T → InputValidationErrorType) :
    (InputValidationError.ofRaw rawError serializer).message = (serializer rawError).name ∧
    (InputValidationError.ofRaw rawError serializer).message
      = (InputValidationError.ofRaw rawError serializer).name :=
  ⟨rfl, rfl⟩

end ErrorHandlerLib
